import Mathlib

/-!
Verification of the chunky-timelapse batch-render orchestrator and
timelapse-assembly pipeline (src/main.py) against its design
specification.  Each Python function relevant to the frozen claims is
shallowly embedded as an executable Lean definition; filesystem state
(directory listings, file modification times) is passed explicitly.
-/

/-! ## Date parsing (src/main.py, parse_date_from_world_name, lines 519-542) -/

/-- A calendar date as produced by Python's datetime constructor:
year, month, day as plain naturals. -/
structure YMD where
  year : Nat
  month : Nat
  day : Nat
deriving DecidableEq

/-- Gregorian leap-year test, as used by Python's datetime module. -/
def isLeapYear (y : Nat) : Bool :=
  y % 4 == 0 && (y % 100 != 0 || y % 400 == 0)

/-- Number of days in a month, as enforced by Python's
datetime constructor (which raises ValueError beyond it). -/
def daysInMonth (y m : Nat) : Nat :=
  if m == 2 then (if isLeapYear y then 29 else 28)
  else if m == 4 || m == 6 || m == 9 || m == 11 then 30
  else 31

/-- Numeric value of an ASCII digit character. -/
def digitVal (c : Char) : Nat := c.toNat - 48

/-- The regex step of parse_date_from_world_name:
re.search of -(\d 2)(\d 2)(\d 2)$ on the name, i.e. the name's last seven
characters are a dash followed by six digits.  Returns the (YY, MM, DD)
numeric groups.  (Digits are modelled as ASCII digits.) -/
def dateToken (cs : List Char) : Option (Nat × Nat × Nat) :=
  if cs.length < 7 then none
  else
    match cs.drop (cs.length - 7) with
    | ['-', a, b, c, d, e, f] =>
      if a.isDigit && b.isDigit && c.isDigit && d.isDigit && e.isDigit && f.isDigit then
        some (digitVal a * 10 + digitVal b,
              digitVal c * 10 + digitVal d,
              digitVal e * 10 + digitVal f)
      else none
    | _ => none

/-- parse_date_from_world_name (src/main.py lines 519-542): extract the
trailing -YYMMDD token, range-check day and month, then build
datetime(2000+YY, MM, DD).  The datetime constructor raises ValueError
for a calendar-invalid day, which the source catches and turns into
None; that is the `dd ≤ daysInMonth` test here. -/
def parse_date_from_world_name (name : String) : Option YMD :=
  match dateToken name.data with
  | none => none
  | some (yy, mm, dd) =>
    if 1 ≤ dd ∧ dd ≤ 31 ∧ 1 ≤ mm ∧ mm ≤ 12 then
      if dd ≤ daysInMonth (2000 + yy) mm then some ⟨2000 + yy, mm, dd⟩
      else none
    else none

/-! ## World scanning (src/main.py, scan_worlds, lines 544-587) -/

/-- Comparison of two parsed dates, as Python compares datetime values:
lexicographically on (year, month, day). -/
def dateLe (a b : YMD) : Bool :=
  decide (a.year < b.year ∨ (a.year = b.year ∧
    (a.month < b.month ∨ (a.month = b.month ∧ a.day ≤ b.day))))

/-- Stable insertion of a (world, date) pair into a date-sorted list:
the new element goes after every element whose date is ≤ its own only
when strictly required, i.e. before the first strictly-later element,
which together with foldr-insertion reproduces Python's stable
list.sort(key=date). -/
def insertByDate (x : String × YMD) : List (String × YMD) → List (String × YMD)
  | [] => [x]
  | y :: ys => if dateLe x.2 y.2 then x :: y :: ys else y :: insertByDate x ys

/-- worlds_with_dates.sort(key=lambda x: x[1]): Python's stable
ascending sort, realized as stable insertion sort. -/
def sortByDate (l : List (String × YMD)) : List (String × YMD) :=
  l.foldr insertByDate []

/-- The directory-listing loop of scan_worlds: the listing is given as
(name, isWorld) pairs in filesystem enumeration order, where isWorld is
the source's "is a directory and contains level.dat" check. -/
def worldEntries (listing : List (String × Bool)) : List String :=
  (listing.filter (fun e => e.2)).map (fun e => e.1)

/-- The dated worlds of a listing, paired with their parsed dates and
sorted chronologically (scan_worlds lines 560-571). -/
def datedPart (listing : List (String × Bool)) : List String :=
  (sortByDate ((worldEntries listing).filterMap
    (fun w => (parse_date_from_world_name w).map (fun d => (w, d))))).map (fun p => p.1)

/-- The undated worlds of a listing, in enumeration order
(scan_worlds lines 560-568). -/
def undatedPart (listing : List (String × Bool)) : List String :=
  (worldEntries listing).filter (fun w => (parse_date_from_world_name w).isNone)

/-- scan_worlds (src/main.py lines 544-587): collect world directories,
split into dated and undated by parse_date_from_world_name, sort the
dated ones chronologically (stably) and put them first, followed by the
undated ones in enumeration order. -/
def scan_worlds (listing : List (String × Bool)) : List String :=
  let world_list := worldEntries listing
  let worlds_with_dates := world_list.filterMap
    (fun w => (parse_date_from_world_name w).map (fun d => (w, d)))
  let other_worlds := world_list.filter
    (fun w => (parse_date_from_world_name w).isNone)
  (sortByDate worlds_with_dates).map (fun p => p.1) ++ other_worlds

/-! ## Snapshot location and renaming
(src/main.py, detect_snapshot_pattern lines 712-734 and
rename_snapshot_with_world_name lines 860-896) -/

/-- Whether the pattern list is an initial segment of the other list. -/
def listStartsWith : List Char → List Char → Bool
  | [], _ => true
  | _ :: _, [] => false
  | a :: ps, b :: ss => a == b && listStartsWith ps ss

/-- Whether the pattern list is a final segment of the other list. -/
def listEndsWith (p s : List Char) : Bool :=
  listStartsWith p.reverse s.reverse

/-- Strip the pattern from the front of a list, if present. -/
def listStripPre : List Char → List Char → Option (List Char)
  | [], s => some s
  | _ :: _, [] => none
  | a :: ps, b :: ss => if a == b then listStripPre ps ss else none

/-- The glob pattern sceneName-*.png over a bare filename: the name
starts with "sceneName-", ends with ".png", and is long enough for the
two parts not to overlap (the * matches zero or more characters).
Scene names are treated as literal text, as the source relies on. -/
def matchesSnapshotGlob (scene fname : String) : Bool :=
  listStartsWith (scene.data ++ ['-']) fname.data &&
  listEndsWith ['.', 'p', 'n', 'g'] fname.data &&
  decide (scene.data.length + 5 ≤ fname.data.length)

/-- glob.glob of sceneName-*.png over a directory listing of
(filename, mtime) pairs. -/
def globFiles (scene : String) (files : List (String × Nat)) : List (String × Nat) :=
  files.filter (fun f => matchesSnapshotGlob scene f.1)

/-- max(files, key=os.path.getmtime): the element with the greatest
modification time, the first one in case of ties (Python's max keeps
the first maximal element). -/
def maxByMtime : List (String × Nat) → Option (String × Nat)
  | [] => none
  | f :: fs => some (fs.foldl (fun best x => if best.2 < x.2 then x else best) f)

/-- Does the position after a digit run allow the regex
sceneName-(\d+).png to complete: one arbitrary character (the dot in
the source pattern is unescaped, so it matches any character) followed
by the literal letters p, n, g. -/
def afterDigitsOk : List Char → Bool
  | _ :: 'p' :: 'n' :: 'g' :: _ => true
  | _ => false

/-- Greedy-with-backtracking match of (\d+).png starting at a digit run
of the given length: try the longest digit group first, as re does,
returning the digit group of the first length that lets the rest of the
pattern match. -/
def tryDigitLens (rest : List Char) : Nat → Option (List Char)
  | 0 => none
  | k + 1 =>
    if afterDigitsOk (rest.drop (k + 1)) then some (rest.take (k + 1))
    else tryDigitLens rest k

/-- Attempt to match the regex sceneName-(\d+).png at the start of s,
returning the digit group. -/
def matchSppAt (scene s : List Char) : Option (List Char) :=
  match listStripPre (scene ++ ['-']) s with
  | none => none
  | some rest => tryDigitLens rest (rest.takeWhile Char.isDigit).length

/-- re.search of sceneName-(\d+).png over s: try every start position
left to right (re.search returns the leftmost match), and at each
position match greedily with backtracking. -/
def searchSpp (scene : List Char) : List Char → Option (List Char)
  | [] => none
  | c :: cs =>
    match matchSppAt scene (c :: cs) with
    | some g => some g
    | none => searchSpp scene cs

/-- os.path.splitext on a bare filename: split before the last dot,
unless every character up to that dot is itself a dot. -/
def splitExtChars (cs : List Char) : List Char × List Char :=
  let revExt := cs.reverse.takeWhile (fun c => c != '.')
  if revExt.length == cs.length then (cs, [])
  else
    let stemLen := cs.length - revExt.length - 1
    if (cs.take stemLen).all (fun c => c == '.') then (cs, [])
    else (cs.take stemLen, cs.drop stemLen)

/-- The new filename computed by rename_snapshot_with_world_name
(lines 877-887) for a selected snapshot: sceneName-digits-worldName.png
when the numeric pattern matches the old name, otherwise the world name
spliced in before the extension. -/
def mkNewName (scene world fname : String) : String :=
  match searchSpp scene.data fname.data with
  | some digits => scene ++ "-" ++ String.mk digits ++ "-" ++ world ++ ".png"
  | none =>
    let parts := splitExtChars fname.data
    String.mk parts.1 ++ "-" ++ world ++ String.mk parts.2

/-- Outcome of one run of the snapshot rename step: which file was
selected (none when the glob found nothing, in which case the step only
logs) and the name it was moved to. -/
structure RenameResult where
  selected : Option String
  newName : Option String
deriving DecidableEq

/-- rename_snapshot_with_world_name (src/main.py lines 860-896), over an
explicit snapshot-directory listing: glob sceneName-*.png, pick the most
recently modified match, and shutil.move it to its recomputed name.
Every failure path in the source is caught and logged, so the step is a
total function; an empty glob result selects nothing. -/
def renameStep (scene world : String) (files : List (String × Nat)) : RenameResult :=
  match maxByMtime (globFiles scene files) with
  | none => ⟨none, none⟩
  | some latest => ⟨some latest.1, some (mkNewName scene world latest.1)⟩

/-- A filename of the unrenamed form sceneName-digits.png (at least one
digit, nothing after the extension). -/
def isUnrenamed (scene : String) (fname : String) : Bool :=
  match listStripPre (scene.data ++ ['-']) fname.data with
  | none => false
  | some rest =>
    let ds := rest.takeWhile Char.isDigit
    decide (1 ≤ ds.length) && rest.drop ds.length == ['.', 'p', 'n', 'g']

/-- detect_snapshot_pattern (src/main.py lines 712-734): record either
sceneName-digits.png read off the first globbed snapshot, or the
wildcard sceneName-*.png.  The result is only stored in
self.snapshot_pattern and logged. -/
def detect_snapshot_pattern (scene : String) (dirExists : Bool)
    (files : List (String × Nat)) : String :=
  if !dirExists then scene ++ "-*.png"
  else
    match globFiles scene files with
    | [] => scene ++ "-*.png"
    | f :: _ =>
      match searchSpp scene.data f.1.data with
      | some digits => scene ++ "-" ++ String.mk digits ++ ".png"
      | none => scene ++ "-*.png"

/-- The application state read or written by the snapshot-rename step:
the source reads self.scene_name, self.current_world_name and the
snapshots directory, and also holds the stored self.snapshot_pattern. -/
structure RenameEnv where
  sceneName : String
  currentWorldName : String
  snapshotPattern : Option String
  files : List (String × Nat)

/-- rename_snapshot_with_world_name as a function of the application
state: a direct translation of the source body, which never consults
the snapshotPattern field. -/
def rename_snapshot_with_world_name (env : RenameEnv) : RenameResult :=
  renameStep env.sceneName env.currentWorldName env.files

/-! ## Render command (src/main.py, render_scene_for_queue, lines 799-819) -/

/-- The argument list built by render_scene_for_queue (lines 802-807) and
passed to subprocess.Popen without a shell: the -render argument is the
scene name wrapped in literal double-quote characters by the f-string. -/
def render_scene_for_queue_cmd (launcherPath scenesDir sceneName : String) : List String :=
  ["java", "-jar", launcherPath,
   "-scene-dir", scenesDir,
   "-render", "\"" ++ sceneName ++ "\"",
   "-f"]

/-! ## Render queue progress (src/main.py, start_render_queue lines
688-710 and process_render_queue lines 736-774) -/

/-- The (current, total) pairs emitted through progress_update_signal by
successive process_render_queue calls, one per job start (lines
750-757): after popping a world, current = len(world_list) -
len(render_queue) and total = len(world_list), both measured against
the full scanned world list, not the enqueued selection. -/
def progressEmissions (worldList : List String) : List String → List (Nat × Nat)
  | [] => []
  | _ :: rest =>
    (worldList.length - rest.length, worldList.length) :: progressEmissions worldList rest

/-- All progress pairs of one batch run: start_render_queue emits
(0, len(render_queue)) over the enqueued selection (line 709), then each
job start emits its pair as process_render_queue drains the queue. -/
def start_render_queue_emissions (worldList selected : List String) : List (Nat × Nat) :=
  (0, selected.length) :: progressEmissions worldList selected

/-! ## Render queue drain (src/main.py, process_render_queue lines
736-774, update_scene_json_with_path lines 776-797,
monitor_queue_process lines 835-858) -/

/-- Observable events of a queue drain: a logged skip when the scene
JSON update fails, a render-process launch otherwise, and the final
completion that logs and clears currently_rendering (back to Idle). -/
inductive QEvent where
  | skipLog (world : String)
  | launch (world : String)
  | complete
deriving DecidableEq

/-- The event sequence produced by repeatedly running
process_render_queue until the queue is empty.  cfgOk tells whether
update_scene_json_with_path succeeds for a world (that function catches
its own exceptions and returns False on failure).  On failure the job
is skipped and process_render_queue recurses immediately (lines
761-765, no process launched); on success the render is launched and,
once the process exits, monitor_queue_process schedules the next
process_render_queue call after a fixed delay (line 858) regardless of
the render's exit status. -/
def drainQueue (cfgOk : String → Bool) : List String → List QEvent
  | [] => [QEvent.complete]
  | w :: rest =>
    if cfgOk w then QEvent.launch w :: drainQueue cfgOk rest
    else QEvent.skipLog w :: drainQueue cfgOk rest

/-- The worlds launched during a drain, in order. -/
def launchedWorlds (events : List QEvent) : List String :=
  events.filterMap (fun e => match e with | QEvent.launch w => some w | _ => none)

/-- The worlds skipped with a logged failure during a drain, in order. -/
def skippedWorlds (events : List QEvent) : List String :=
  events.filterMap (fun e => match e with | QEvent.skipLog w => some w | _ => none)

/-! ## Video assembly: frame sizing and read failures
(src/main.py, create_video_thread, lines 1094-1239) -/

/-- Outcome of the frame-reading and sizing part of one video-assembly
run: the sizes of the frames actually written, in order, and whether
the run aborted with the run-level error handler. -/
structure VideoResult where
  written : List (Nat × Nat)
  fatalError : Bool
deriving DecidableEq

/-- create_video_thread, restricted to frame reading and sizing
(lines 1096-1151 and 1221): each frame is given as its native
(width, height), or none when cv2.imread cannot read the file.  The
first file fixes resize_needed and output_size (reading it as None
crashes on .shape and aborts the whole run via the outer except); in
the loop an unreadable frame is skipped, and a readable frame is
resized to output_size only when resize_needed was set.  The downscaled
width int(width * (1080 / height)) is modelled as Nat floor division
width * 1080 / height; the properties proved below do not depend on the
exact rounded value. -/
def create_video_frame_sizes (frames : List (Option (Nat × Nat))) : VideoResult :=
  match frames with
  | [] => ⟨[], true⟩
  | none :: _ => ⟨[], true⟩
  | some (w, h) :: _ =>
    let resizeNeeded := 1080 < h
    let outSize := if 1080 < h then (w * 1080 / h, 1080) else (w, h)
    ⟨frames.filterMap (fun f => f.map (fun wh => if resizeNeeded then outSize else wh)),
     false⟩

/-! ## Video assembly: per-frame day labels
(src/main.py, create_video_thread, lines 1134-1185) -/

/-- The per-frame world-name/day loop of create_video_thread, with the
world_day_map cache threaded through as an association list (inserted
at most once per world, so lookup agrees with the Python dict).  Each
frame is given as the world name extracted from its filename by the
scene-digits-worldname regex, or none when that regex fails.  readTicks
models the whole metadata resolution for a world: some gameTimeTicks
when mcworldlib is importable, the world's source path exists and
reading Data.Time succeeds, and none on any failure (then nothing is
cached and the frame keeps its positional fallback).  Returns the
(day value, world name) of each frame in order; i is the 0-based frame
index, so the fallback day is i + 1. -/
def dayLabelsAux (readTicks : String → Option Nat) :
    List (String × Nat) → Nat → List (Option String) → List (Nat × String)
  | _, _, [] => []
  | cache, i, none :: fs => (i + 1, "Unknown") :: dayLabelsAux readTicks cache (i + 1) fs
  | cache, i, some w :: fs =>
    match cache.lookup w with
    | some d => (d, w) :: dayLabelsAux readTicks cache (i + 1) fs
    | none =>
      match readTicks w with
      | some t =>
        (t / 24000, w) :: dayLabelsAux readTicks ((w, t / 24000) :: cache) (i + 1) fs
      | none => (i + 1, w) :: dayLabelsAux readTicks cache (i + 1) fs

/-- The (day value, world name) labels of a video-assembly run, starting
from the empty world_day_map (line 1135). -/
def dayLabels (readTicks : String → Option Nat) (frames : List (Option String)) :
    List (Nat × String) :=
  dayLabelsAux readTicks [] 0 frames

/-- The day labels as the specification describes them, frame by frame
with no cache: day = gameTimeTicks / 24000 on a successful metadata
read, and the frame's 1-based position on any failure. -/
def daySpecLabels (readTicks : String → Option Nat) :
    Nat → List (Option String) → List (Nat × String)
  | _, [] => []
  | i, none :: fs => (i + 1, "Unknown") :: daySpecLabels readTicks (i + 1) fs
  | i, some w :: fs =>
    (match readTicks w with
     | some t => (t / 24000, w)
     | none => (i + 1, w)) :: daySpecLabels readTicks (i + 1) fs

/-! ## Helper lemmas -/

/-- The date comparison is total. -/
theorem dateLe_total (a b : YMD) : dateLe a b = true ∨ dateLe b a = true := by
  simp only [dateLe, decide_eq_true_eq]
  omega

/-- Membership through stable insertion. -/
theorem mem_insertByDate (x y : String × YMD) (l : List (String × YMD)) :
    y ∈ insertByDate x l ↔ y = x ∨ y ∈ l := by
  induction l with
  | nil => simp [insertByDate]
  | cons z zs ih =>
    simp only [insertByDate]
    split
    · simp [List.mem_cons]
    · simp [List.mem_cons, ih]
      tauto

/-- Stable insertion is a permutation of consing. -/
theorem insertByDate_perm (x : String × YMD) (l : List (String × YMD)) :
    List.Perm (insertByDate x l) (x :: l) := by
  induction l with
  | nil => simp [insertByDate]
  | cons z zs ih =>
    simp only [insertByDate]
    split
    · exact List.Perm.refl _
    · exact List.Perm.trans (List.Perm.cons z ih) (List.Perm.swap x z zs)

/-- The stable sort permutes its input. -/
theorem sortByDate_perm (l : List (String × YMD)) : List.Perm (sortByDate l) l := by
  induction l with
  | nil => exact List.Perm.refl _
  | cons x xs ih =>
    exact List.Perm.trans (insertByDate_perm x (sortByDate xs)) (List.Perm.cons x ih)

/-- Stable insertion preserves sortedness by date. -/
theorem chain'_insertByDate (x : String × YMD) (l : List (String × YMD))
    (h : List.Chain' (fun p q => dateLe p.2 q.2 = true) l) :
    List.Chain' (fun p q => dateLe p.2 q.2 = true) (insertByDate x l) := by
  induction l with
  | nil => simp [insertByDate]
  | cons y ys ih =>
    simp only [insertByDate]
    split
    · rename_i hxy
      exact List.Chain'.cons hxy h
    · rename_i hxy
      have hyx : dateLe y.2 x.2 = true := by
        rcases dateLe_total x.2 y.2 with h1 | h1
        · exact absurd h1 hxy
        · exact h1
      rw [List.chain'_cons']
      refine ⟨?_, ih h.tail⟩
      intro z hz
      cases ys with
      | nil =>
        simp [insertByDate] at hz
        rw [← hz]
        exact hyx
      | cons u us =>
        simp only [insertByDate] at hz
        split at hz
        · simp at hz
          rw [← hz]
          exact hyx
        · simp at hz
          rw [← hz]
          exact (List.chain'_cons.mp h).1

/-- The stable sort produces a date-sorted list. -/
theorem chain'_sortByDate (l : List (String × YMD)) :
    List.Chain' (fun p q => dateLe p.2 q.2 = true) (sortByDate l) := by
  induction l with
  | nil => simp [sortByDate]
  | cons x xs ih => exact chain'_insertByDate x (sortByDate xs) ih

/-- The names of the (world, date) pairs are exactly the datable names,
in order. -/
theorem map_fst_filterMap_withDates (l : List String) :
    ((l.filterMap (fun w => (parse_date_from_world_name w).map (fun d => (w, d)))).map
        (fun p => p.1))
      = l.filter (fun w => (parse_date_from_world_name w).isSome) := by
  induction l with
  | nil => rfl
  | cons w ws ih =>
    cases h : parse_date_from_world_name w with
    | none => simp [List.filterMap_cons, List.filter_cons, h, ih]
    | some d => simp [List.filterMap_cons, List.filter_cons, h, ih]

/-- Each (world, date) pair carries its own parse result. -/
theorem withDates_parse (l : List String) (p : String × YMD)
    (hp : p ∈ l.filterMap (fun w => (parse_date_from_world_name w).map (fun d => (w, d)))) :
    parse_date_from_world_name p.1 = some p.2 := by
  rw [List.mem_filterMap] at hp
  obtain ⟨w, _, hw⟩ := hp
  rw [Option.map_eq_some'] at hw
  obtain ⟨d, hd, heq⟩ := hw
  rw [← heq]
  exact hd

/-- Strengthen a chain relation using facts about the list's members. -/
theorem chain'_imp_of_mem {α : Type} {R S : α → α → Prop} :
    ∀ (l : List α), List.Chain' R l → (∀ a ∈ l, ∀ b ∈ l, R a b → S a b) → List.Chain' S l
  | [], _, _ => List.chain'_nil
  | [_], _, _ => List.chain'_singleton _
  | a :: b :: l, h, hm => by
    rw [List.chain'_cons] at h ⊢
    refine ⟨hm a (List.mem_cons_self a _) b (List.mem_cons_of_mem a (List.mem_cons_self b _)) h.1, ?_⟩
    exact chain'_imp_of_mem (b :: l) h.2
      (fun x hx y hy hr => hm x (List.mem_cons_of_mem a hx) y (List.mem_cons_of_mem a hy) hr)

/-- The running maximum of a fold is one of the candidates. -/
theorem foldl_max_mem (x : String × Nat) (xs : List (String × Nat)) :
    xs.foldl (fun best y => if best.2 < y.2 then y else best) x ∈ x :: xs := by
  induction xs generalizing x with
  | nil => simp
  | cons y ys ih =>
    simp only [List.foldl_cons]
    rcases List.mem_cons.mp (ih (if x.2 < y.2 then y else x)) with h1 | h1
    · rw [h1]
      split
      · exact List.mem_cons_of_mem _ (List.mem_cons_self _ _)
      · exact List.mem_cons_self _ _
    · exact List.mem_cons_of_mem _ (List.mem_cons_of_mem _ h1)

/-- A most-recently-modified file is one of the given files. -/
theorem maxByMtime_mem (l : List (String × Nat)) (f : String × Nat)
    (h : maxByMtime l = some f) : f ∈ l := by
  cases l with
  | nil => simp [maxByMtime] at h
  | cons x xs =>
    simp only [maxByMtime, Option.some_inj] at h
    have hm := foldl_max_mem x xs
    rwa [h] at hm

/-- Mapping inside the options does not change how many frames survive
the skip filter. -/
theorem filterMap_map_len {α β : Type} (g : α → β) (l : List (Option α)) :
    (l.filterMap (fun f => f.map g)).length = (l.filterMap id).length := by
  induction l with
  | nil => rfl
  | cons f fs ih => cases f <;> simp [List.filterMap_cons, ih]

/-- Position-wise description of the job-start progress pairs. -/
theorem progressEmissions_get (worldList : List String) :
    ∀ (selected : List String) (k : Nat), k < selected.length →
    (progressEmissions worldList selected)[k]? =
      some (worldList.length - (selected.length - (k + 1)), worldList.length) := by
  intro selected
  induction selected with
  | nil =>
    intro k hk
    simp at hk
  | cons x rest ih =>
    intro k hk
    cases k with
    | zero =>
      simp [progressEmissions]
    | succ k' =>
      have hk' : k' < rest.length := by simpa using hk
      have h := ih k' hk'
      simp only [progressEmissions, List.getElem?_cons_succ, List.length_cons]
      rw [h]
      congr 2
      omega

/-- A queue drain always produces at least one event. -/
theorem drainQueue_ne_nil (cfgOk : String → Bool) (queue : List String) :
    drainQueue cfgOk queue ≠ [] := by
  cases queue with
  | nil => simp [drainQueue]
  | cons w rest =>
    simp only [drainQueue]
    split <;> simp

/-- The cache of the day-label loop is invisible in its output: as long
as every cached entry agrees with what a fresh metadata read would give
(which holds by construction, since entries are only inserted after a
successful read), the loop computes the cache-free per-frame values. -/
theorem dayLabelsAux_eq_spec (readTicks : String → Option Nat) :
    ∀ (frames : List (Option String)) (cache : List (String × Nat)) (i : Nat),
      (∀ w d, cache.lookup w = some d → ∃ t, readTicks w = some t ∧ d = t / 24000) →
      dayLabelsAux readTicks cache i frames = daySpecLabels readTicks i frames := by
  intro frames
  induction frames with
  | nil =>
    intro cache i _
    rfl
  | cons f fs ih =>
    intro cache i hc
    cases f with
    | none =>
      simp only [dayLabelsAux, daySpecLabels]
      rw [ih cache (i + 1) hc]
    | some w =>
      cases hl : cache.lookup w with
      | some d =>
        obtain ⟨t, ht, hd⟩ := hc w d hl
        simp only [dayLabelsAux, daySpecLabels, hl, ht]
        rw [hd, ih cache (i + 1) hc]
      | none =>
        cases ht : readTicks w with
        | some t =>
          simp only [dayLabelsAux, daySpecLabels, hl, ht]
          refine congrArg _ (ih _ (i + 1) ?_)
          intro w' d' h'
          simp only [List.lookup] at h'
          split at h'
          · rename_i hbeq
            refine ⟨t, ?_, ?_⟩
            · rw [eq_of_beq hbeq]
              exact ht
            · exact (Option.some_inj.mp h').symm
          · exact hc w' d' h'
        | none =>
          simp only [dayLabelsAux, daySpecLabels, hl, ht]
          rw [ih cache (i + 1) hc]

/-! ## Claim theorems -/

/-- Claim C1: for every scan of a parent directory, the resulting world
list places all worlds with a valid trailing -YYMMDD date first, sorted
in non-decreasing chronological order by that date, and all undated
worlds after them in the filesystem's enumeration order (not
independently sorted).  The permutation conjunct adds that the dated
block consists of exactly the datable worlds. -/
theorem scan_worlds_order (listing : List (String × Bool)) :
    scan_worlds listing = datedPart listing ++ undatedPart listing ∧
    (∀ w ∈ datedPart listing, (parse_date_from_world_name w).isSome = true) ∧
    List.Chain' (fun a b => ∃ da db, parse_date_from_world_name a = some da ∧
      parse_date_from_world_name b = some db ∧ dateLe da db = true) (datedPart listing) ∧
    List.Perm (datedPart listing)
      ((worldEntries listing).filter (fun w => (parse_date_from_world_name w).isSome)) ∧
    undatedPart listing
      = (worldEntries listing).filter (fun w => (parse_date_from_world_name w).isNone) := by
  refine ⟨rfl, ?_, ?_, ?_, rfl⟩
  · intro w hw
    rw [datedPart, List.mem_map] at hw
    obtain ⟨p, hp, hpw⟩ := hw
    have hp' := (sortByDate_perm _).mem_iff.mp hp
    have := withDates_parse _ p hp'
    rw [← hpw, this]
    rfl
  · rw [datedPart, List.chain'_map]
    refine chain'_imp_of_mem _ (chain'_sortByDate _) ?_
    intro p hp q hq hpq
    have hp' := withDates_parse _ p ((sortByDate_perm _).mem_iff.mp hp)
    have hq' := withDates_parse _ q ((sortByDate_perm _).mem_iff.mp hq)
    exact ⟨p.2, q.2, hp', hq', hpq⟩
  · rw [datedPart, ← map_fst_filterMap_withDates]
    exact List.Perm.map _ (sortByDate_perm _)

/-- Claim C1 witness: on the listing b-250102, a-250101, plain, the
dated block is a-250101, b-250102 and its members parse to dates. -/
theorem scan_worlds_order_witness :
    (parse_date_from_world_name "a-250101").isSome = true :=
  (scan_worlds_order [("b-250102", true), ("a-250101", true), ("plain", true)]).2.1
    "a-250101" (by decide)

/-- Claim C2 counterexample: the world name world-250231 passes both
range checks (day 31 in 1..31, month 2 in 1..12), yet parsing yields
none — February 31 is rejected by the datetime constructor's calendar
validation, so the world is treated as undated, contradicting the
claim that the literal date is returned with no calendar check. -/
theorem parse_feb31_counterexample :
    dateToken "world-250231".data = some (25, 2, 31) ∧
    (1 ≤ 31 ∧ 31 ≤ 31 ∧ 1 ≤ 2 ∧ 2 ≤ 12) ∧
    parse_date_from_world_name "world-250231" ≠ some ⟨2025, 2, 31⟩ ∧
    parse_date_from_world_name "world-250231" = none := by decide

/-- Claim C2 amended: for a world name whose trailing token is -YYMMDD,
parsing returns date(2000+YY, MM, DD) exactly when the day and month
range checks pass AND the day exists in that month of that year (the
datetime constructor's calendar validation, whose ValueError the
source catches); otherwise the name is treated as undated without
raising. -/
theorem parse_date_amended (name : String) (yy mm dd : Nat)
    (htok : dateToken name.data = some (yy, mm, dd)) :
    (1 ≤ dd ∧ dd ≤ 31 ∧ 1 ≤ mm ∧ mm ≤ 12 ∧ dd ≤ daysInMonth (2000 + yy) mm →
      parse_date_from_world_name name = some ⟨2000 + yy, mm, dd⟩) ∧
    (¬(1 ≤ dd ∧ dd ≤ 31 ∧ 1 ≤ mm ∧ mm ≤ 12 ∧ dd ≤ daysInMonth (2000 + yy) mm) →
      parse_date_from_world_name name = none) := by
  simp only [parse_date_from_world_name, htok]
  constructor
  · intro h
    obtain ⟨h1, h2, h3, h4, h5⟩ := h
    rw [if_pos ⟨h1, h2, h3, h4⟩, if_pos h5]
  · intro h
    by_cases hr : 1 ≤ dd ∧ dd ≤ 31 ∧ 1 ≤ mm ∧ mm ≤ 12
    · rw [if_pos hr, if_neg]
      intro h5
      exact h ⟨hr.1, hr.2.1, hr.2.2.1, hr.2.2.2, h5⟩
    · rw [if_neg hr]

/-- Claim C2 witness: world-250214 parses to February 14, 2025. -/
theorem parse_date_amended_witness :
    parse_date_from_world_name "world-250214" = some ⟨2025, 2, 14⟩ :=
  (parse_date_amended "world-250214" 25 2 14 (by decide)).1 (by decide)

/-- Claim C3 counterexample: a snapshot directory holding only the
already-renamed file scene-64-hill.png (no unrenamed scene-digits.png
remains).  Re-running the rename step is not a no-op: the glob
scene-*.png still matches the renamed file, the numeric pattern fails
on it, and the fallback path renames it again to
scene-64-hill-w2.png. -/
theorem rename_idem_counterexample :
    isUnrenamed "scene" "scene-64-hill.png" = false ∧
    renameStep "scene" "w2" [("scene-64-hill.png", 10)] =
      ⟨some "scene-64-hill.png", some "scene-64-hill-w2.png"⟩ ∧
    ("scene-64-hill-w2.png" : String) ≠ "scene-64-hill.png" := by decide

/-- Claim C3 amended: re-running the rename step when no unrenamed
sceneName-digits.png files remain raises no error (the step is total),
but it is a no-op only when the glob matches nothing: whenever the glob
sceneName-*.png still matches some (necessarily already-renamed) file,
the most recently modified match is selected and renamed once more to
its recomputed name. -/
theorem rename_rerun_renames (scene world : String) (files : List (String × Nat))
    (sel : String × Nat)
    (hno : ∀ f ∈ files, isUnrenamed scene f.1 = false)
    (hsel : maxByMtime (globFiles scene files) = some sel) :
    sel ∈ files ∧ matchesSnapshotGlob scene sel.1 = true ∧
    isUnrenamed scene sel.1 = false ∧
    renameStep scene world files = ⟨some sel.1, some (mkNewName scene world sel.1)⟩ := by
  have hmem := maxByMtime_mem _ _ hsel
  have hfiles : sel ∈ files := (List.mem_filter.mp hmem).1
  have hglob : matchesSnapshotGlob scene sel.1 = true := (List.mem_filter.mp hmem).2
  refine ⟨hfiles, hglob, hno sel hfiles, ?_⟩
  rw [renameStep, hsel]

/-- Claim C3 witness: re-running on the directory holding only the
renamed file scene-64-hill.png renames it again. -/
theorem rename_rerun_renames_witness :
    renameStep "scene" "w2" [("scene-64-hill.png", 10)] =
      ⟨some "scene-64-hill.png", some "scene-64-hill-w2.png"⟩ :=
  ((rename_rerun_renames "scene" "w2" [("scene-64-hill.png", 10)]
      ("scene-64-hill.png", 10) (by decide) (by decide)).2.2.2).trans (by decide)

/-- Claim C4 counterexample: first frame 100x100 (height not above
1080) fixes output size 100x100 and resize_needed = False; the second
frame's native 200x200 differs from that fixed size yet is written
unresized, so the written frames do not share one output size. -/
theorem video_fixed_size_counterexample :
    (create_video_frame_sizes [some (100, 100), some (200, 200)]).written
      = [(100, 100), (200, 200)] ∧
    ((200, 200) : Nat × Nat) ≠ (100, 100) := by decide

/-- Claim C4 amended: frames are resized to the first frame's
downscaled size only when the first frame's height exceeds 1080 (then
every written frame has that one fixed size); when the first frame's
height is at most 1080, resize_needed stays False and every readable
frame is written at its own native size, even when it differs from the
first frame's. -/
theorem video_resize_amended (frames : List (Option (Nat × Nat))) (w h : Nat)
    (hfirst : frames.head? = some (some (w, h))) :
    (create_video_frame_sizes frames).fatalError = false ∧
    (1080 < h →
      ∀ s ∈ (create_video_frame_sizes frames).written, s = (w * 1080 / h, 1080)) ∧
    (h ≤ 1080 → (create_video_frame_sizes frames).written = frames.filterMap id) := by
  cases frames with
  | nil => exact absurd hfirst (by simp)
  | cons f rest =>
    have hf : f = some (w, h) := by simpa using hfirst
    subst hf
    refine ⟨rfl, ?_, ?_⟩
    · intro hh s hs
      simp only [create_video_frame_sizes, if_pos hh] at hs
      rw [List.mem_filterMap] at hs
      obtain ⟨a, _, ha⟩ := hs
      cases a with
      | none => simp at ha
      | some wh =>
        simp only [Option.map_some', Option.some_inj] at ha
        exact ha.symm
    · intro hle
      have hnot : ¬ 1080 < h := Nat.not_lt.mpr hle
      simp only [create_video_frame_sizes, if_neg hnot]
      have hid : (fun f : Option (Nat × Nat) => Option.map (fun wh => wh) f)
          = (id : Option (Nat × Nat) → Option (Nat × Nat)) := by
        funext f
        cases f <;> rfl
      rw [hid]

/-- Claim C4 witness: with a first frame of height at most 1080, every
readable frame is written at its native size. -/
theorem video_resize_amended_witness :
    (create_video_frame_sizes [some (100, 100), some (64, 64)]).written =
      List.filterMap id [some (100, 100), some (64, 64)] :=
  (video_resize_amended [some (100, 100), some (64, 64)] 100 100 rfl).2.2 (by decide)

/-- Claim C5 counterexample: world list alpha, beta with only alpha
selected.  The claim predicts the first job start emits (0, 1) —
0 jobs completed of a 1-job queue — but the code emits (2, 2): both
components are measured against the full scanned world list,
len(world_list) - len(render_queue) and len(world_list). -/
theorem progress_counterexample :
    start_render_queue_emissions ["alpha", "beta"] ["alpha"] = [(0, 1), (2, 2)] ∧
    ((2, 2) : Nat × Nat) ≠ (0, 1) := by decide

/-- Claim C5 amended: enqueueing emits initial progress (0, queue
total), but each job start emits (len(world_list) - len(remaining
queue), len(world_list)) — the count of jobs started so far offset
against the full scanned world list, not (jobs completed, queue
total): the k-th job start (0-based k) emits
(len(world_list) - (len(queue) - (k+1)), len(world_list)). -/
theorem progress_amended (worldList selected : List String) (k : Nat)
    (hk : k < selected.length) :
    (start_render_queue_emissions worldList selected).head? = some (0, selected.length) ∧
    (progressEmissions worldList selected)[k]? =
      some (worldList.length - (selected.length - (k + 1)), worldList.length) :=
  ⟨rfl, progressEmissions_get worldList selected k hk⟩

/-- Claim C5 witness: with the full two-world list selected, the first
job start emits (1, 2), not (0, 2). -/
theorem progress_amended_witness :
    (start_render_queue_emissions ["alpha", "beta"] ["alpha", "beta"]).head?
      = some (0, 2) ∧
    (progressEmissions ["alpha", "beta"] ["alpha", "beta"])[0]? = some (1, 2) :=
  progress_amended ["alpha", "beta"] ["alpha", "beta"] 0 (by decide)

/-- Claim C6 counterexample: when the first frame file is unreadable,
the size-determination step (first_img.shape on None) raises, the
run-level handler aborts the whole assembly, and no frame is written —
the unreadable first frame is not skipped. -/
theorem frame_skip_counterexample :
    (create_video_frame_sizes [none, some (100, 100)]).fatalError = true ∧
    (create_video_frame_sizes [none, some (100, 100)]).written = [] := by decide

/-- Claim C6 amended: an unreadable frame is skipped and assembly
continues — exactly the readable frames are written — provided the
first frame of the run is readable; an unreadable first frame instead
aborts the entire run with a run-level error and nothing is written. -/
theorem frame_read_amended (wh : Nat × Nat) (rest : List (Option (Nat × Nat))) :
    (create_video_frame_sizes (some wh :: rest)).fatalError = false ∧
    (create_video_frame_sizes (some wh :: rest)).written.length
      = (rest.filterMap id).length + 1 ∧
    (create_video_frame_sizes (none :: rest)).fatalError = true ∧
    (create_video_frame_sizes (none :: rest)).written = [] := by
  obtain ⟨w, h⟩ := wh
  refine ⟨rfl, ?_, rfl, rfl⟩
  simp only [create_video_frame_sizes, List.filterMap_cons, Option.map_some']
  rw [List.length_cons, filterMap_map_len]

/-- Claim C7 counterexample: for scene test2 the built argument list is
not the claimed one — the -render argument carries literal double
quotes around the name. -/
theorem render_cmd_counterexample :
    render_scene_for_queue_cmd "ChunkyLauncher.jar" "scenes" "test2" ≠
      ["java", "-jar", "ChunkyLauncher.jar", "-scene-dir", "scenes",
       "-render", "test2", "-f"] := by decide

/-- Claim C7 amended: every job launches the renderer with exactly
java -jar launcherPath -scene-dir scenesDir -render ARG -f, where ARG
is the job name wrapped in literal double-quote characters — never the
unmodified job name, since the wrapped string always differs from the
name itself. -/
theorem render_cmd_amended (launcherPath scenesDir sceneName : String) :
    render_scene_for_queue_cmd launcherPath scenesDir sceneName =
      ["java", "-jar", launcherPath, "-scene-dir", scenesDir, "-render",
       "\"" ++ sceneName ++ "\"", "-f"] ∧
    "\"" ++ sceneName ++ "\"" ≠ sceneName := by
  refine ⟨rfl, ?_⟩
  intro heq
  have hl := congrArg String.length heq
  rw [String.length_append, String.length_append] at hl
  have hq : ("\"" : String).length = 1 := rfl
  rw [hq] at hl
  omega

/-- Claim C7 witness: the argument passed for scene test2 is the quoted
string, which differs from test2. -/
theorem render_cmd_amended_witness :
    "\"" ++ "test2" ++ "\"" ≠ ("test2" : String) :=
  (render_cmd_amended "ChunkyLauncher.jar" "scenes" "test2").2

/-- Claim C8: for every queue and every pattern of scene-JSON write
outcomes, a job whose configuration rewrite fails is skipped with a
logged failure and no launch event, the queue advances so that exactly
the jobs with a successful rewrite are launched, in queue order, and
the drain always ends with the single completion event that returns
the queue to Idle. -/
theorem cfg_failure_skips_queue (cfgOk : String → Bool) (queue : List String) :
    launchedWorlds (drainQueue cfgOk queue) = queue.filter (fun w => cfgOk w) ∧
    skippedWorlds (drainQueue cfgOk queue) = queue.filter (fun w => !cfgOk w) ∧
    (drainQueue cfgOk queue).getLast? = some QEvent.complete ∧
    (drainQueue cfgOk queue).count QEvent.complete = 1 := by
  induction queue with
  | nil =>
    refine ⟨rfl, rfl, rfl, ?_⟩
    rfl
  | cons w rest ih =>
    obtain ⟨ih1, ih2, ih3, ih4⟩ := ih
    have hne := drainQueue_ne_nil cfgOk rest
    by_cases hw : cfgOk w
    · refine ⟨?_, ?_, ?_, ?_⟩
      · simp [drainQueue, launchedWorlds, hw, List.filter_cons] at ih1 ⊢
        exact ih1
      · simp [drainQueue, skippedWorlds, hw, List.filter_cons] at ih2 ⊢
        exact ih2
      · simp only [drainQueue, if_pos hw]
        cases hd : drainQueue cfgOk rest with
        | nil => exact absurd hd hne
        | cons e es =>
          rw [List.getLast?_cons_cons, ← hd]
          exact ih3
      · simp only [drainQueue, if_pos hw, List.count_cons]
        rw [ih4]
        rfl
    · refine ⟨?_, ?_, ?_, ?_⟩
      · simp [drainQueue, launchedWorlds, hw, List.filter_cons] at ih1 ⊢
        exact ih1
      · simp [drainQueue, skippedWorlds, hw, List.filter_cons] at ih2 ⊢
        exact ih2
      · simp only [drainQueue, if_neg hw]
        cases hd : drainQueue cfgOk rest with
        | nil => exact absurd hd hne
        | cons e es =>
          rw [List.getLast?_cons_cons, ← hd]
          exact ih3
      · simp only [drainQueue, if_neg hw, List.count_cons]
        rw [ih4]
        rfl

/-- Claim C9: the day labels of a video-assembly run equal the
cache-free per-frame specification: when the metadata read for a
world succeeds with gameTimeTicks t the frame shows day t / 24000
(integer division) — so a later frame with the same world name shows
the same value, whether served from world_day_map or recomputed — and
on any failure the frame shows its 1-based position in the sorted
sequence. -/
theorem day_labels_match_spec (readTicks : String → Option Nat)
    (frames : List (Option String)) :
    dayLabels readTicks frames = daySpecLabels readTicks 0 frames :=
  dayLabelsAux_eq_spec readTicks frames [] 0
    (fun w d h => by simp [List.lookup] at h)

/-- Claim C10: the detected snapshot pattern is dead state for the
rename step — two runs of rename_snapshot_with_world_name over the
same scene name, current world name and directory contents, differing
only in the stored snapshot_pattern value, select the same file and
produce the same new name, because the step re-globs
sceneName-*.png itself and never consults the stored pattern. -/
theorem snapshot_pattern_never_read (e1 e2 : RenameEnv)
    (hs : e1.sceneName = e2.sceneName)
    (hw : e1.currentWorldName = e2.currentWorldName)
    (hf : e1.files = e2.files) :
    rename_snapshot_with_world_name e1 = rename_snapshot_with_world_name e2 := by
  unfold rename_snapshot_with_world_name
  rw [hs, hw, hf]

/-- Claim C10 witness: the two states store different detected patterns
(scene-7.png from a populated directory and the wildcard from a missing
one), yet the rename step's outcome over equal directory contents is
identical. -/
theorem snapshot_pattern_never_read_witness :
    rename_snapshot_with_world_name
      ⟨"scene", "hill-250205",
        some (detect_snapshot_pattern "scene" true [("scene-7.png", 1), ("scene-64.png", 2)]),
        [("scene-64.png", 2)]⟩ =
    rename_snapshot_with_world_name
      ⟨"scene", "hill-250205", some (detect_snapshot_pattern "scene" false []),
        [("scene-64.png", 2)]⟩ :=
  snapshot_pattern_never_read _ _ rfl rfl rfl
